import Mathlib

/-! Verification model of the twitch-discord-ai-bot message-handling core:
`utils/message_handler.py`, `utils/memory_manager.py` and
`src/ollama_integration.py`.  Python strings are modelled as Lean strings
(character lists, with ASCII case mapping), floats as rationals, network and
file-system effects as explicit oracle parameters, dictionaries as total
functions or association lists, and Python exceptions as `Except` values.
Each Python method is translated to a pure function of the relevant object
state, which is threaded explicitly. -/

namespace Bot

/-! Python string primitives, shared by the translated methods. -/

/-- Whitespace characters removed by Python `str.strip` (the ASCII subset,
which covers the inputs the bot sees). -/
def is_py_space (c : Char) : Bool :=
  c == ' ' || c == '\t' || c == '\n' || c == '\r' || c == '\x0b' || c == '\x0c'

/-- Python `str.strip` on a character list. -/
def py_strip_list (s : List Char) : List Char :=
  ((s.dropWhile is_py_space).reverse.dropWhile is_py_space).reverse

/-- Python `str.lower` (ASCII case mapping). -/
def py_lower (s : String) : String := String.mk (s.data.map Char.toLower)

/-- Python `str.upper` (ASCII case mapping). -/
def py_upper (s : String) : String := String.mk (s.data.map Char.toUpper)

/-- Python `str.strip`. -/
def py_strip (s : String) : String := String.mk (py_strip_list s.data)

/-- Python `str.capitalize` (ASCII case mapping). -/
def py_capitalize (s : String) : String :=
  match s.data with
  | [] => ""
  | c :: r => String.mk (c.toUpper :: r.map Char.toLower)

/-- The scan of Python `s.replace(pat, "")` for a nonempty pattern: at each
position, a match of `pat` is deleted and scanning resumes after it,
otherwise the character is kept.  The fuel only bounds the recursion; it
decreases slower than the text, so `s.length` fuel always suffices. -/
def py_remove_all_aux (pat : List Char) : Nat → List Char → List Char
  | 0, s => s
  | _ + 1, [] => []
  | fuel + 1, c :: rest =>
    if (c :: rest).take pat.length = pat then
      py_remove_all_aux pat fuel ((c :: rest).drop pat.length)
    else
      c :: py_remove_all_aux pat fuel rest

/-- Python `s.replace(pat, "")`: delete every non-overlapping occurrence of
`pat`, left to right.  An empty pattern leaves the string unchanged (Python
inserts the empty replacement, which is invisible). -/
def py_remove_all_list (s pat : List Char) : List Char :=
  match pat with
  | [] => s
  | _ :: _ => py_remove_all_aux pat s.length s

/-- Python `s.replace(pat, "")` on strings. -/
def py_remove_all (s pat : String) : String :=
  String.mk (py_remove_all_list s.data pat.data)

/-- Python substring membership `sub in s`. -/
def py_contains_list (s sub : List Char) : Bool :=
  (List.range (s.length + 1)).any (fun i => decide ((s.drop i).take sub.length = sub))

/-- Python substring membership on strings. -/
def py_contains (s sub : String) : Bool := py_contains_list s.data sub.data

/-- Python `s.startswith(pre)`. -/
def py_starts (s pre : String) : Bool :=
  decide (s.data.take pre.data.length = pre.data)

/-- Python `s[n:]` (drop the first n characters). -/
def py_drop (s : String) (n : Nat) : String := String.mk (s.data.drop n)

/-- Python `s[:n]` (take the first n characters). -/
def py_take (s : String) (n : Nat) : String := String.mk (s.data.take n)

/-- Python `str.rfind`: the greatest index at which `sub` occurs in `s`, or
none when it does not occur (an empty pattern matches at the end, as in
Python). -/
def py_rfind (s sub : List Char) : Option Nat :=
  ((List.range (s.length + 1)).reverse).find?
    (fun i => decide ((s.drop i).take sub.length = sub))

/-- Python `s.split(sep, 1)`: the text before the first separator, and the
remainder after it when the separator occurs. -/
def py_split_once_list (s : List Char) (sep : Char) : List Char × Option (List Char) :=
  let pre := s.takeWhile (fun c => !(c == sep))
  match s.dropWhile (fun c => !(c == sep)) with
  | [] => (pre, none)
  | _ :: tail => (pre, some tail)

/-- Python `s.split(sep, 1)` on strings. -/
def py_split_once (s : String) (sep : Char) : String × Option String :=
  let r := py_split_once_list s.data sep
  (String.mk r.1, r.2.map String.mk)

/-- Python `s.split(sep)` for a single-character separator. -/
def py_split_char (s : List Char) (sep : Char) : List (List Char) :=
  match h : s.dropWhile (fun c => !(c == sep)) with
  | [] => [s.takeWhile (fun c => !(c == sep))]
  | _ :: tail => s.takeWhile (fun c => !(c == sep)) :: py_split_char tail sep
termination_by s.length
decreasing_by
  have hle : (s.dropWhile (fun c => !(c == sep))).length ≤ s.length :=
    (List.dropWhile_sublist _).length_le
  rw [h] at hle
  simp at hle
  omega

/-! Conversation history: `MessageHandler.store_message` and friends. -/

/-- One role-tagged turn of a conversation buffer. -/
structure Turn where
  role : String
  content : String
deriving DecidableEq, Repr

/-- Model of `MessageHandler.get_conversation_key`. -/
def conv_key (username channel_id : String) : String := username ++ ":" ++ channel_id

/-- The last `n` elements of a list (Python `l[-n:]`). -/
def last_n (n : Nat) (l : List α) : List α := l.drop (l.length - n)

/-- Model of `MessageHandler.store_message`: append the turn under the key and truncate
the buffer of that key to its last 20 entries when it exceeds 20.  The per-key
dictionary with lazily-created empty buffers is modelled as a total function
with default `[]`. -/
def store_message (h : String → List Turn) (username channel_id role content : String) :
    String → List Turn :=
  fun k =>
    if k = conv_key username channel_id then
      let l := h k ++ [⟨role, content⟩]
      if 20 < l.length then l.drop (l.length - 20) else l
    else h k

/-- Model of `MessageHandler.get_conversation_history`. -/
def get_conversation_history (h : String → List Turn) (username channel_id : String) :
    List Turn :=
  h (conv_key username channel_id)

/-- The arguments of one `store_message` call. -/
structure StoreEv where
  username : String
  channel_id : String
  role : String
  content : String

/-- Run a sequence of `store_message` calls from the empty history. -/
def run_store (events : List StoreEv) : String → List Turn :=
  events.foldl (fun h e => store_message h e.username e.channel_id e.role e.content)
    (fun _ => [])

/-- The turns ever stored under a given conversation key, in call order. -/
def events_for (key : String) (events : List StoreEv) : List Turn :=
  events.filterMap (fun e =>
    if conv_key e.username e.channel_id = key then some ⟨e.role, e.content⟩ else none)

/-! Vector memory: `utils/memory_manager.py`.  The Chroma engine and the
embedding model are outside the repository; they are modelled as an abstract
distance function `dist : String → String → ℚ`, and a collection query
returns the stored documents ranked by ascending distance to the query text
(top-k, with optional conjunctive metadata equality filters), which is the
documented contract of the backend.  The `enabled` degradation guard sits in the
callers (`MessageHandler` checks `memory_manager.enabled` before every
call), and is modelled there. -/

/-- One stored memory record (document, flattened metadata, id). -/
structure MRec where
  content : String
  metadata : List (String × String)
  doc_id : String
deriving DecidableEq, Repr

/-- The two named collections of the memory database. -/
structure MemState where
  conversations : List MRec
  knowledge : List MRec
deriving DecidableEq, Repr

/-- Model of `MemoryManager._generate_id`: the md5 of "content|json(metadata)" is
modelled by the (injective) serialized combination itself; the call sites
build the metadata list in one fixed key order, standing in for json.dumps
with sorted keys. -/
def generate_id (content : String) (metadata : List (String × String)) : String :=
  content ++ "|" ++ String.intercalate "," (metadata.map (fun kv => kv.1 ++ "=" ++ kv.2))

/-- A Chroma `collection.query`: the top `n_results` stored documents by
ascending embedding distance to the query, after the optional conjunctive
metadata equality filter. -/
def collection_query (dist : String → String → ℚ) (docs : List MRec) (q : String)
    (filt : Option (List (String × String))) (n_results : Nat) : List (MRec × ℚ) :=
  let filtered := match filt with
    | none => docs
    | some fs => docs.filter (fun r => fs.all (fun kv => decide (r.metadata.lookup kv.1 = some kv.2)))
  (List.insertionSort (fun a b => a.2 ≤ b.2)
    (filtered.map (fun r => (r, dist q r.content)))).take n_results

/-- Collection selection by name, the getattr on lowered collection_name used
by `MemoryManager._is_duplicate`. -/
def collection_of (st : MemState) (name : String) : Option (List MRec) :=
  if py_lower name = "conversations" then some st.conversations
  else if py_lower name = "knowledge" then some st.knowledge
  else none

/-- One result row of `search_memory`. -/
structure SearchHit where
  content : String
  metadata : List (String × String)
  similarity : ℚ
  collection : String
deriving DecidableEq, Repr

/-- The effective result cap of `search_memory`: the Python expression
`limit or self.max_results`, under which a limit of 0 (or None) falls back to
the configured maximum. -/
def effective_limit (max_results : Nat) (limit : Option Nat) : Nat :=
  match limit with
  | some n => if n = 0 then max_results else n
  | none => max_results

/-- The collection choice of `search_memory`: the named collection, or both
when the name is missing or unrecognized. -/
def search_pick (st : MemState) (collection_name : Option String) :
    List (List MRec × String) :=
  match collection_name with
  | some n =>
    if n = "conversations" then [(st.conversations, "conversations")]
    else if n = "knowledge" then [(st.knowledge, "knowledge")]
    else [(st.conversations, "conversations"), (st.knowledge, "knowledge")]
  | none => [(st.conversations, "conversations"), (st.knowledge, "knowledge")]

/-- The row collection of `search_memory` before sorting: every queried row
whose similarity reaches the threshold, tagged with its collection name. -/
def search_results (dist : String → String → ℚ) (threshold : ℚ) (st : MemState)
    (query : String) (collection_name : Option String)
    (filter_metadata : Option (List (String × String))) (eff : Nat) : List SearchHit :=
  (search_pick st collection_name).flatMap (fun cp =>
    (collection_query dist cp.1 query filter_metadata eff).filterMap (fun rd =>
      let sim : ℚ := if rd.2 ≤ 1 then 1 - rd.2 else 0
      if threshold ≤ sim then some ⟨rd.1.content, rd.1.metadata, sim, cp.2⟩ else none))

/-- The rows of `search_memory` sorted by descending similarity (the Python
stable `list.sort(key, reverse=True)`; the output of a stable sort is unique, so
insertion sort stands in for it exactly). -/
def search_sorted (dist : String → String → ℚ) (threshold : ℚ) (st : MemState)
    (query : String) (collection_name : Option String)
    (filter_metadata : Option (List (String × String))) (eff : Nat) : List SearchHit :=
  List.insertionSort (fun a b => b.similarity ≤ a.similarity)
    (search_results dist threshold st query collection_name filter_metadata eff)

/-- Model of `MemoryManager.search_memory`: query the chosen collection(s), turn each
distance into a similarity (`1 - dist`, clamped to 0 beyond distance 1),
keep rows at or above the similarity threshold, sort all rows by descending
similarity and truncate to the effective limit when it is nonzero. -/
def search_memory (dist : String → String → ℚ) (threshold : ℚ) (max_results : Nat)
    (st : MemState) (query : String) (collection_name : Option String)
    (filter_metadata : Option (List (String × String))) (limit : Option Nat) :
    List SearchHit :=
  if effective_limit max_results limit ≠ 0
      ∧ effective_limit max_results limit
        < (search_sorted dist threshold st query collection_name filter_metadata
            (effective_limit max_results limit)).length then
    (search_sorted dist threshold st query collection_name filter_metadata
      (effective_limit max_results limit)).take (effective_limit max_results limit)
  else
    search_sorted dist threshold st query collection_name filter_metadata
      (effective_limit max_results limit)

/-- Model of `MemoryManager._is_duplicate`: nearest-neighbour query (n_results = 1) in
the named collection; duplicate when its similarity `1 - distance` reaches
the threshold; no stored neighbour means not a duplicate. -/
def is_duplicate (dist : String → String → ℚ) (threshold : ℚ) (st : MemState)
    (collection_name : String) (content : String) : Bool :=
  match collection_of st collection_name with
  | none => false
  | some docs =>
    match (collection_query dist docs content none 1).head? with
    | none => false
    | some rd => decide (threshold ≤ 1 - rd.2)

/-- Model of `MemoryManager.store_conversation`: build the metadata (the timestamp is
the stringified `time.time()` value, passed in), and insert the record unless
a near-duplicate already exists in the conversations collection. -/
def store_conversation (dist : String → String → ℚ) (threshold : ℚ) (st : MemState)
    (content username platform channel_id role timestamp : String) : Bool × MemState :=
  let metadata := [("username", username), ("platform", platform),
    ("channel_id", channel_id), ("role", role), ("timestamp", timestamp)]
  let doc_id := generate_id content metadata
  if !(is_duplicate dist threshold st "conversations" content) then
    (true, {st with conversations := st.conversations ++ [⟨content, metadata, doc_id⟩]})
  else
    (false, st)

/-- Model of `MemoryManager.get_relevant_context`: up to 3 conversation matches
filtered by the given identity fields, up to 3 knowledge matches, formatted
as the two labelled blocks. -/
def get_relevant_context (dist : String → String → ℚ) (threshold : ℚ) (max_results : Nat)
    (st : MemState) (query username channel_id platform : String) : String :=
  let fs := (if username ≠ "" then [("username", username)] else []) ++
            (if channel_id ≠ "" then [("channel_id", channel_id)] else []) ++
            (if platform ≠ "" then [("platform", platform)] else [])
  let filters := if fs = [] then none else some fs
  let conv_results := search_memory dist threshold max_results st query
      (some "conversations") filters (some 3)
  let knowledge_results := search_memory dist threshold max_results st query
      (some "knowledge") none (some 3)
  let part1 : List String :=
    if knowledge_results ≠ [] then
      "### Información relevante:" ::
        (knowledge_results.enum.map (fun p =>
          toString (p.1 + 1) ++ ". " ++ p.2.content ++ " (Fuente: "
            ++ ((p.2.metadata.lookup "source").getD "desconocido") ++ ")"))
    else []
  let part2 : List String :=
    if conv_results ≠ [] then
      "\n### Conversación anterior relevante:" ::
        (conv_results.map (fun item =>
          (if item.metadata.lookup "role" = some "user" then "Usuario" else "Asistente")
            ++ ": " ++ item.content))
    else []
  let parts := part1 ++ part2
  if parts ≠ [] then String.intercalate "\n\n" parts else ""

/-- The sentence boundaries tried by `_split_text`, in order. -/
def boundaries : List (List Char) := [['.', ' '], ['!', ' '], ['?', ' '], ['\n']]

/-- The boundary scan of `_split_text`: rfind each boundary in the candidate
chunk in turn, and stop at the first one whose position lies past
`chunk_size // 2`, returning the adjusted chunk length `pos + len(boundary)`. -/
def find_boundary (slice : List Char) (cs : Nat) : List (List Char) → Option Nat
  | [] => none
  | b :: bs =>
    match py_rfind slice b with
    | some p => if cs / 2 < p then some (p + b.length) else find_boundary slice cs bs
    | none => find_boundary slice cs bs

/-- The end position of the `_split_text` chunk starting at `start`:
`min(start + chunk_size, len(text))`, pulled back to a sentence boundary when
the chunk does not already reach the end of the text. -/
def end_at (text : List Char) (cs : Nat) (start : Nat) : Nat :=
  let e0 := min (start + cs) text.length
  if e0 < text.length then
    match find_boundary ((text.drop start).take (e0 - start)) cs boundaries with
    | some q => start + q
    | none => e0
  else e0

/-- The while-loop of `_split_text`; the fuel bounds the iteration count (each
iteration strictly advances `start` when `chunk_size ≥ 1`, so
`text.length + 1` iterations always suffice, and the source loop terminates
in exactly the same cases). -/
def split_aux (text : List Char) (cs ov : Nat) : Nat → Nat → List (List Char)
  | 0, _ => []
  | fuel + 1, start =>
    if start < text.length then
      let e := end_at text cs start
      let chunk := (text.drop start).take (e - start)
      let nxt := if start < e - ov then e - ov else e
      chunk :: split_aux text cs ov fuel nxt
    else []

/-- Model of `MemoryManager._split_text`. -/
def split_text (text : List Char) (cs ov : Nat) : List (List Char) :=
  if text.length ≤ cs then [text] else split_aux text cs ov (text.length + 1) 0

/-- Two consecutive chunks overlap by exactly `ov` characters at their seam:
both are at least `ov` long, and the last `ov` characters of the first are
the first `ov` characters of the second. -/
def seam (ov : Nat) (a b : List Char) : Prop :=
  ov ≤ a.length ∧ ov ≤ b.length ∧ a.drop (a.length - ov) = b.take ov

/-! LLM client: `src/ollama_integration.py`.  The HTTP backend is abstracted
as an oracle mapping the system prompt and the attempt index to the network
outcome of that attempt; the knowledge directory is abstracted as the scan
result plus a content loader. -/

/-- Model of `config.AI_PERSONAS` (a hard-coded table), in dict insertion order. -/
def AI_PERSONAS : List (String × String) := [
  ("default", "Eres un asistente útil integrado con un bot de Twitch y Discord. Mantén tus respuestas concisas, amigables y apropiadas para plataformas de streaming."),
  ("streamer", "Eres una personalidad de streaming carismática y entretenida. Tus respuestas deben ser enérgicas, atractivas y divertidas."),
  ("expert", "Eres un experto con conocimientos que proporciona información precisa y detallada mientras mantiene un tono profesional."),
  ("comedian", "Eres un comediante ingenioso con un sentido del humor desenfadado. Tus respuestas deben ser divertidas pero apropiadas para todo tipo de público."),
  ("motivator", "Eres un motivador inspirador que ofrece mensajes alentadores y de apoyo.")]

/-- Model of `config.SUPPORTED_LANGUAGES`. -/
def SUPPORTED_LANGUAGES : List String := ["english", "spanish"]

/-- Model of `config.LANGUAGE_PROMPTS`. -/
def LANGUAGE_PROMPTS : List (String × String) := [
  ("english", "IMPORTANT: You must ALWAYS respond in English, regardless of the language of the input. Do NOT translate your responses to any other language. Your responses should be in grammatically correct and natural-sounding English."),
  ("spanish", "IMPORTANTE: Debes SIEMPRE responder en español, sin importar el idioma de la entrada. NO traduzcas tus respuestas a ningún otro idioma. Tus respuestas deben estar en español gramaticalmente correcto y natural.")]

/-- One entry of `_scan_knowledge_files`; the `{size/1024:.1f}` rendering used
by `list_knowledge_files` is supplied by the environment as display text. -/
structure KFile where
  name : String
  ftype : String
  size_display : String
deriving DecidableEq, Repr

/-- The knowledge-directory environment of the client. -/
structure KnowEnv where
  files : List KFile
  file_content : String → Option String

/-- The names found by `_scan_knowledge_files`, in scan order. -/
def scan_names (env : KnowEnv) : List String := env.files.map (fun f => f.name)

/-- The mutable fields of `OllamaClient` observed by the claims. -/
structure OClient where
  current_persona : String
  current_language : String
  active_knowledge : List String
deriving DecidableEq, Repr

/-- Model of `OllamaClient.activate_knowledge`. -/
def activate_knowledge (env : KnowEnv) (st : OClient) (name : String) :
    (Bool × String) × OClient :=
  if !((scan_names env).contains name) then
    ((false, "Archivo de conocimiento \x27" ++ name ++ "\x27 no encontrado"), st)
  else if st.active_knowledge.contains name then
    ((true, "Archivo de conocimiento \x27" ++ name ++ "\x27 ya está activo"), st)
  else
    ((true, "Archivo de conocimiento \x27" ++ name ++ "\x27 activado"),
     {st with active_knowledge := st.active_knowledge ++ [name]})

/-- Model of `OllamaClient.deactivate_knowledge`. -/
def deactivate_knowledge (st : OClient) (name : String) : (Bool × String) × OClient :=
  if !(st.active_knowledge.contains name) then
    ((false, "Archivo de conocimiento \x27" ++ name ++ "\x27 no está activo"), st)
  else
    ((true, "Archivo de conocimiento \x27" ++ name ++ "\x27 desactivado"),
     {st with active_knowledge := st.active_knowledge.erase name})

/-- Model of `OllamaClient.list_knowledge_files`. -/
def list_knowledge_files (env : KnowEnv) (st : OClient) : String :=
  let base := "Archivos de conocimiento disponibles:\n\n"
  if env.files = [] then
    base ++ "No se encontraron archivos de conocimiento. Añade archivos .txt, .md o .json al directorio \x27knowledge\x27."
  else
    base ++ String.join (env.files.map (fun f =>
      "• " ++ f.name ++ " (" ++ f.ftype ++ ", " ++ f.size_display ++ " KB) "
        ++ (if st.active_knowledge.contains f.name then "[ACTIVO]" else "") ++ "\n"))

/-- Model of `OllamaClient._get_active_knowledge_content`: the content of each active file
wrapped in a BEGIN/END block labelled with the upper-cased name; files whose
load fails contribute nothing. -/
def get_active_knowledge_content (env : KnowEnv) (st : OClient) : String :=
  if st.active_knowledge = [] then ""
  else
    let parts := st.active_knowledge.filterMap (fun n =>
      (env.file_content n).map (fun content =>
        "--- BEGIN " ++ py_upper n ++ " ---\n" ++ content ++ "\n--- END " ++ py_upper n ++ " ---"))
    if parts = [] then "" else String.intercalate "\n\n" parts

/-- Model of `OllamaClient.get_current_persona_prompt`: language directive first,
persona description, fixed behavioural guidance, active knowledge blocks,
and the repeated language directive last. -/
def get_current_persona_prompt (env : KnowEnv) (st : OClient) : String :=
  let base := (AI_PERSONAS.lookup st.current_persona).getD
    ((AI_PERSONAS.lookup "default").getD "")
  let language := (LANGUAGE_PROMPTS.lookup st.current_language).getD ""
  let knowledge_content := get_active_knowledge_content env st
  let knowledge :=
    if knowledge_content ≠ "" then
      "\n\nTienes acceso a la siguiente base de conocimientos. Usa esta información al responder preguntas:\n\n"
        ++ knowledge_content
        ++ "\n\nCuando respondas preguntas que se relacionen directamente con la base de conocimientos, asegúrate de usar SOLO la información proporcionada."
    else ""
  language ++ "\n\n" ++ base ++ "\n\n"
    ++ "Presta atención al historial de conversación y al contexto proporcionado. "
    ++ "Tus respuestas deben ser concisas (1-3 oraciones) y adaptadas a la plataforma. "
    ++ "Evita cualquier tema controvertido y contenido potencialmente dañino."
    ++ knowledge ++ "\n\n"
    ++ "INSTRUCCIÓN FINAL IMPORTANTE: " ++ language

/-- Model of `OllamaClient.set_persona`. -/
def set_persona (st : OClient) (persona : String) : (Bool × String) × OClient :=
  if (AI_PERSONAS.lookup persona).isSome then
    ((true, "Personalidad cambiada a " ++ persona), {st with current_persona := persona})
  else
    ((false, "Personalidad \x27" ++ persona ++ "\x27 desconocida. Personalidades disponibles: "
      ++ String.intercalate ", " (AI_PERSONAS.map (fun kv => kv.1))), st)

/-- Model of `OllamaClient.set_language`. -/
def set_language (st : OClient) (language : String) : (Bool × String) × OClient :=
  if SUPPORTED_LANGUAGES.contains language then
    ((true, "Idioma cambiado a " ++ language), {st with current_language := language})
  else
    ((false, "Idioma \x27" ++ language ++ "\x27 desconocido. Idiomas disponibles: "
      ++ String.intercalate ", " SUPPORTED_LANGUAGES), st)

/-- The body of one HTTP attempt, as seen by `generate_response`: whether
`response.json()` parsed, and the `message.content` field when present. -/
inductive BodyParse where
  | badJson
  | parsed (content : Option String)
deriving DecidableEq, Repr

/-- The network outcome of one attempt against the backend. -/
inductive AttemptOutcome where
  | timeout
  | clientError
  | httpResponse (status : Nat) (body : BodyParse)
deriving DecidableEq, Repr

/-- The apology returned by `generate_response` after the retries are
exhausted by timeouts. -/
def timeout_message : String :=
  "Lo siento, me está tomando demasiado tiempo procesar tu mensaje. El modelo podría estar ocupado o la consulta es demasiado compleja. ¿Podrías intentar con una pregunta más simple?"

/-- The apology returned after the retries are exhausted by connection
errors. -/
def client_error_message : String :=
  "Lo siento, estoy teniendo problemas técnicos. Intentémoslo de nuevo más tarde."

/-- The apology returned when the final attempt still gets a non-200 HTTP
status. -/
def http_error_message : String :=
  "Lo siento, estoy teniendo problemas para conectarme a mi cerebro en este momento."

/-- The fallback returned when the body of the final attempt carries no
`message.content`. -/
def malformed_message : String := "No estoy seguro de cómo responder a eso."

/-- The observable outcome of `generate_response`: the returned string (or a
propagated `json.JSONDecodeError`, which the source does not catch), the
number of attempts made, and the sleeps performed between them. -/
structure GenOutcome where
  result : Except Unit String
  attempts : Nat
  sleeps : List Nat
deriving Repr

/-- The retry loop of `generate_response`: up to `max_retries` retries after
the first attempt; a non-200 status returns the connection apology only on
the last attempt (earlier attempts fall through to parse the body); a parsed
body with `message.content` is returned (stripped) regardless of the status;
a body without it retries; a timeout or `aiohttp.ClientError` retries; each
retry first sleeps `retry_delay`, which then doubles.  The
`attempt == max_retries` tests of the source are written `max_retries ≤ attempt`, an
equivalent along the loop (attempt counts up from 0). -/
def run_attempts (backend : Nat → AttemptOutcome) (max_retries attempt retry_delay : Nat)
    (sleeps : List Nat) : GenOutcome :=
  match backend attempt with
  | .timeout =>
    if _h : max_retries ≤ attempt then ⟨.ok timeout_message, attempt + 1, sleeps⟩
    else run_attempts backend max_retries (attempt + 1) (retry_delay * 2) (sleeps ++ [retry_delay])
  | .clientError =>
    if _h : max_retries ≤ attempt then ⟨.ok client_error_message, attempt + 1, sleeps⟩
    else run_attempts backend max_retries (attempt + 1) (retry_delay * 2) (sleeps ++ [retry_delay])
  | .httpResponse status body =>
    if status ≠ 200 ∧ max_retries ≤ attempt then ⟨.ok http_error_message, attempt + 1, sleeps⟩
    else
      match body with
      | .badJson => ⟨.error (), attempt + 1, sleeps⟩
      | .parsed (some content) => ⟨.ok (py_strip content), attempt + 1, sleeps⟩
      | .parsed none =>
        if _h : max_retries ≤ attempt then ⟨.ok malformed_message, attempt + 1, sleeps⟩
        else run_attempts backend max_retries (attempt + 1) (retry_delay * 2) (sleeps ++ [retry_delay])
termination_by max_retries - attempt
decreasing_by all_goals omega

/-- The system prompt built by `generate_response` and
`generate_response_stream`: the current persona prompt, the platform
context sentence, and the memory block when context was retrieved. -/
def build_system_prompt (env : KnowEnv) (st : OClient) (username platform memory_context : String) :
    String :=
  let sys := get_current_persona_prompt env st
    ++ "\n\n" ++ "The user " ++ username ++ " is chatting on " ++ platform ++ "."
  if memory_context ≠ "" then
    sys ++ "\n\n"
      ++ "\n\nA continuación hay información relevante de la base de datos vectorial que puede ser útil para responder a la consulta del usuario. Esta información proviene tanto de conversaciones pasadas como de la base de conocimientos.\n\n"
      ++ memory_context
  else sys

/-- Model of `OllamaClient.generate_response`: auto-activate the scanned knowledge
files when none are active, build the system prompt, and run the retry loop
(max_retries = 2, initial retry_delay = 1).  The payload fields that do not
vary across the loop (model, message, options, formatted history) are folded
into the backend oracle. -/
def generate_response (env : KnowEnv) (backend : String → Nat → AttemptOutcome) (st : OClient)
    (message username platform channel_id : String) (conversation_history : List Turn)
    (memory_context : String) : GenOutcome × OClient :=
  let st := if st.active_knowledge = [] then
      (scan_names env).foldl (fun s n => (activate_knowledge env s n).2) st
    else st
  let system_prompt := build_system_prompt env st username platform memory_context
  (run_attempts (backend system_prompt) 2 0 1 [], st)

/-- Model of `OllamaClient.generate_persona_response`: remember the current persona,
switch to the requested one, generate, and restore the original persona —
the restore is skipped when the inner call raises, as in the source. -/
def generate_persona_response (env : KnowEnv) (backend : String → Nat → AttemptOutcome)
    (st : OClient) (message persona username platform channel_id : String)
    (conversation_history : List Turn) (memory_context : String) :
    (Except Unit String) × OClient :=
  let original := st.current_persona
  let r := generate_response env backend {st with current_persona := persona}
      message username platform channel_id conversation_history memory_context
  match r.1.result with
  | .ok response => (.ok response, {r.2 with current_persona := original})
  | .error e => (.error e, r.2)

/-- One ndjson line of the streaming response, as the stream loop sees it:
an empty line, a line that fails to parse as JSON (skipped), or a parsed
object with its optional `message.content` chunk and optional `done` key. -/
inductive StreamLine where
  | blank
  | badJson
  | chunk (content : Option String) (done_key : Option Bool)
deriving DecidableEq, Repr

/-- The loop state of the streaming body of `generate_response_stream`. -/
structure StreamState where
  buffer : String
  full : String
  yields : List String
  stopped : Bool
deriving DecidableEq, Repr

/-- The initial stream state. -/
def stream_init : StreamState := ⟨"", "", [], false⟩

/-- One iteration of the streaming loop: append a nonempty content chunk to
the buffer and the full response, flush the buffer as a yield once it holds
at least 4 characters or the line carries a `done` key, and stop (flushing
any leftover buffer) on a line whose `done` value is true. -/
def stream_step (st : StreamState) (l : StreamLine) : StreamState :=
  if st.stopped then st
  else
    match l with
    | .blank => st
    | .badJson => st
    | .chunk content done_key =>
      let st1 := match content with
        | some ch =>
          if ch ≠ "" then
            let buffer := st.buffer ++ ch
            if 4 ≤ buffer.length ∨ done_key ≠ none then
              {st with buffer := "", full := st.full ++ ch, yields := st.yields ++ [buffer]}
            else
              {st with buffer := buffer, full := st.full ++ ch}
          else st
        | none => st
      if done_key = some true then
        if st1.buffer ≠ "" then
          {st1 with buffer := "", yields := st1.yields ++ [st1.buffer], stopped := true}
        else {st1 with stopped := true}
      else st1

/-- The network-level outcome of one streaming run. -/
inductive StreamRun where
  | ok (status : Nat) (lines : List StreamLine)
  | timeoutError
  | connectionError
deriving DecidableEq, Repr

/-- The streaming body of `generate_response_stream`: the yielded fragments in
order and the assembled `full_response`.  A non-200 status yields the
connection apology; a timeout or connection error yields the matching apology
and records a shortened apology as the full response; otherwise the ndjson
lines are folded and the fallback is yielded when no content was
assembled. -/
def stream_result : StreamRun → List String × String
  | .ok status lines =>
    if status ≠ 200 then ([http_error_message], "")
    else
      let fin := lines.foldl stream_step stream_init
      let yields := if fin.full = "" then fin.yields ++ [malformed_message] else fin.yields
      (yields, fin.full)
  | .timeoutError =>
    (["Lo siento, me está tomando demasiado tiempo procesar tu mensaje. ¿Podrías intentar con una pregunta más simple?"],
     "Lo siento, me está tomando demasiado tiempo procesar tu mensaje.")
  | .connectionError =>
    ([client_error_message], "Lo siento, estoy teniendo problemas técnicos.")

/-- Model of `OllamaClient.generate_response_stream`: the same knowledge auto-activation
and prompt construction as `generate_response`, then the streaming body. -/
def generate_response_stream (env : KnowEnv) (st : OClient)
    (message username platform channel_id : String) (conversation_history : List Turn)
    (memory_context : String) (run : StreamRun) : (List String × String) × OClient :=
  let st := if st.active_knowledge = [] then
      (scan_names env).foldl (fun s n => (activate_knowledge env s n).2) st
    else st
  let _system_prompt := build_system_prompt env st username platform memory_context
  (stream_result run, st)

/-! Message routing: `utils/message_handler.py`.  The regex intent detector
and the should-respond probe of the LLM are abstracted as oracles for one call;
`command_manage_memory` and `command_manage_intent` are abstracted as
environment functions (their behaviour is file-system, statistics and
intent-detector I/O outside the claims under verification); both return a
report string. -/

/-- The configuration options read by the handler (`config/config.py` values,
which come from the environment).  `cmd_start` is BOT_PREFIX, `trigger` is
AI_TRIGGER_PHRASE, `sim_threshold` and `max_results` are the memory
settings, and `discord_bot_id` is the id extracted from the Discord token
(None when unavailable). -/
structure Cfg where
  cmd_start : String
  trigger : String
  enable_ai : Bool
  enable_intent : Bool
  discord_master : String
  twitch_master : String
  discord_bot_id : Option String
  sim_threshold : ℚ
  max_results : Nat

/-- The mutable state reachable from a `MessageHandler`: the per-key
conversation buffers, the `enabled` flag and collections of the memory manager,
the shared `OllamaClient` fields, and the loaded
channel-guideline document of the intent detector (opaque to the claims). -/
structure HState where
  history : String → List Turn
  mem_enabled : Bool
  mem : MemState
  client : OClient
  guidelines : String

/-- External collaborators of the handler: the knowledge directory, the
embedding distance, the per-language guideline documents, and the two
abstracted admin commands. -/
structure HandlerEnv where
  know : KnowEnv
  dist : String → String → ℚ
  guidelines_doc : String → String
  memory_cmd : HState → String → String × HState
  intent_cmd : HState → String → String × HState

/-- The oracle outcomes of one `process_message` call: the LLM backend, the
`analyze_message` of the intent detector (should_respond, intent_response),
the `random.random() < AI_RESPONSE_PROBABILITY` draw, the
`analyze_message` probe, and the two `time.time()` stamps taken while
storing to vector memory. -/
structure Oracles where
  backend : String → Nat → AttemptOutcome
  intent_analyze : String → String → Bool × Option String
  random_hit : Bool
  ollama_analyze : Bool × Option String
  now1 : String
  now2 : String

/-- Python truthiness of an optional string (None and "" are falsy). -/
def truthy (o : Option String) : Bool :=
  match o with
  | some s => s ≠ ""
  | none => false

/-- The message cleaning of `handle_ai_request` and
`handle_ai_request_stream`: lower-case the message, delete the lower-cased
trigger phrase, strip, and fall back to the fixed greeting when nothing is
left. -/
def clean_ai_message (trigger message : String) : String :=
  let r := py_strip (py_remove_all (py_lower message) (py_lower trigger))
  if r = "" then "Hello!" else r

/-- Model of `MessageHandler.handle_ai_request`: clean the message, store it to vector
memory (when enabled), retrieve memory context, call the LLM, and on a
normal return store the response as an Assistant turn and to vector
memory. -/
def handle_ai_request (cfg : Cfg) (env : HandlerEnv) (o : Oracles) (st : HState)
    (message username channel_id platform : String) : (Except Unit String) × HState :=
  let clean_message := clean_ai_message cfg.trigger message
  let st := if st.mem_enabled then
      {st with mem := (store_conversation env.dist cfg.sim_threshold st.mem clean_message
        username platform channel_id "user" o.now1).2}
    else st
  let memory_context := if st.mem_enabled then
      get_relevant_context env.dist cfg.sim_threshold cfg.max_results st.mem clean_message
        username channel_id platform
    else ""
  let r := generate_response env.know o.backend st.client clean_message username platform
      channel_id (get_conversation_history st.history username channel_id) memory_context
  let st := {st with client := r.2}
  match r.1.result with
  | .error e => (.error e, st)
  | .ok response =>
    let st := {st with history := store_message st.history username channel_id "Assistant" response}
    let st := if st.mem_enabled then
        {st with mem := (store_conversation env.dist cfg.sim_threshold st.mem response
          username platform channel_id "assistant" o.now2).2}
      else st
    (.ok response, st)

/-- Model of `MessageHandler.handle_ai_request_stream`: the streaming variant.  The
inspection of the generator attribute `cr_running` in the source never fires
(async generators expose `ag_running`, not `cr_running`), so the stored
response is the accumulated chunk text. -/
def handle_ai_request_stream (cfg : Cfg) (env : HandlerEnv) (o : Oracles) (st : HState)
    (message username channel_id platform : String) (run : StreamRun) :
    (List String) × HState :=
  let clean_message := clean_ai_message cfg.trigger message
  let st := if st.mem_enabled then
      {st with mem := (store_conversation env.dist cfg.sim_threshold st.mem clean_message
        username platform channel_id "user" o.now1).2}
    else st
  let memory_context := if st.mem_enabled then
      get_relevant_context env.dist cfg.sim_threshold cfg.max_results st.mem clean_message
        username channel_id platform
    else ""
  let g := generate_response_stream env.know st.client clean_message username platform
      channel_id (get_conversation_history st.history username channel_id) memory_context run
  let st := {st with client := g.2}
  let full_response := g.1.2
  if full_response ≠ "" then
    let st := {st with history := store_message st.history username channel_id "Assistant" full_response}
    let st := if st.mem_enabled then
        {st with mem := (store_conversation env.dist cfg.sim_threshold st.mem full_response
          username platform channel_id "assistant" o.now2).2}
      else st
    (g.1.1, st)
  else (g.1.1, st)

/-- The admin-only command names of `handle_command`. -/
def admin_commands : List String :=
  ["persona", "language", "languages", "knowledge", "knowledges", "memory", "intent"]

/-- The command table keys of `MessageHandler.__init__`. -/
def command_names : List String :=
  ["help", "ping", "ai", "persona", "personas", "ask", "language", "languages",
   "knowledge", "knowledges", "memory", "intent"]

/-- Whether the caller is the configured master user for the platform. -/
def is_master (cfg : Cfg) (username platform : String) : Bool :=
  (platform == "discord" && username == cfg.discord_master)
    || (platform == "twitch" && username == cfg.twitch_master)

/-- The denial returned to a non-master caller of an admin command. -/
def denial_message (command : String) : String :=
  "Lo siento, solo los usuarios administradores pueden ejecutar el comando \x27"
    ++ command ++ "\x27."

/-- The denial of the second, knowledge-specific admin check. -/
def knowledge_denial_message : String :=
  "Lo siento, los comandos de conocimiento son exclusivos para administradores."

/-- The reply to an unrecognized command name. -/
def unknown_command_message (cfg : Cfg) (command : String) : String :=
  "Unknown command: " ++ command ++ ". Type " ++ cfg.cmd_start
    ++ "help for a list of commands."

/-- Model of `MessageHandler.command_help`. -/
def command_help (cfg : Cfg) (username platform : String) : String :=
  let is_admin := is_master cfg username platform
  let base :=
    "Comandos disponibles:\n"
    ++ cfg.cmd_start ++ "help - Mostrar este mensaje de ayuda\n"
    ++ cfg.cmd_start ++ "ping - Comprobar si el bot está en línea\n"
    ++ cfg.cmd_start ++ "ai <mensaje> - Hacer una pregunta a la IA\n"
    ++ cfg.cmd_start ++ "personas - Listar las personalidades disponibles\n"
    ++ cfg.cmd_start ++ "ask <persona> <mensaje> - Hacer una pregunta a una personalidad específica\n"
  let base :=
    if is_admin then
      base ++ "\nComandos de administrador:\n"
      ++ cfg.cmd_start ++ "persona <n> - Cambiar la personalidad de la IA (default, streamer, expert, comedian, motivator)\n"
      ++ cfg.cmd_start ++ "language <idioma> - Cambiar el idioma del bot (english, spanish)\n"
      ++ cfg.cmd_start ++ "languages - Listar los idiomas disponibles\n"
      ++ cfg.cmd_start ++ "knowledge - Gestionar archivos de conocimiento personalizados\n"
      ++ cfg.cmd_start ++ "knowledges - Listar archivos de conocimiento disponibles\n"
      ++ cfg.cmd_start ++ "memory - Gestionar la memoria vectorial del bot\n"
      ++ cfg.cmd_start ++ "intent - Gestionar las respuestas automáticas basadas en intenciones\n"
    else
      base ++ "\nAlgunos comandos adicionales están disponibles solo para administradores."
  base ++ "\n\nTambién puedes mencionar al bot usando \x27" ++ cfg.trigger
    ++ "\x27 para obtener respuestas de la IA."

/-- Model of `MessageHandler.command_list_personas`. -/
def command_list_personas (st : OClient) : String :=
  "Available AI personas:\n\n" ++ String.join (AI_PERSONAS.map (fun kv =>
    let short := if 100 < kv.2.length then py_take kv.2 100 ++ "..." else kv.2
    "• " ++ kv.1 ++ (if kv.1 == st.current_persona then " [ACTIVE]" else "")
      ++ ": " ++ short ++ "\n"))

/-- Model of `MessageHandler.command_list_languages`. -/
def command_list_languages (st : OClient) : String :=
  "Available languages:\n\n" ++ String.join (SUPPORTED_LANGUAGES.map (fun language =>
    let marker := if language == st.current_language then " [ACTIVE]" else ""
    let description :=
      if language = "english" then "English - Default language"
      else if language = "spanish" then "Spanish (Español) - El bot responderá en español"
      else py_capitalize language
    "• " ++ language ++ marker ++ ": " ++ description ++ "\n"))

/-- Model of `MessageHandler.command_persona`. -/
def command_persona (st : OClient) (args : String) : String × OClient :=
  if args = "" then
    ("Current persona: " ++ st.current_persona ++ "\nAvailable personas: "
      ++ String.intercalate ", " (AI_PERSONAS.map (fun kv => kv.1)), st)
  else
    let r := set_persona st (py_lower (py_strip args))
    (r.1.2, r.2)

/-- Model of `MessageHandler.command_language`: on a successful switch the intent
detector reloads the guideline document of that language. -/
def command_language (env : HandlerEnv) (st : HState) (args : String) : String × HState :=
  if args = "" then
    ("Current language: " ++ st.client.current_language ++ "\nAvailable languages: "
      ++ String.intercalate ", " SUPPORTED_LANGUAGES, st)
  else
    let language := py_lower (py_strip args)
    let r := set_language st.client language
    let st := {st with client := r.2}
    if r.1.1 then (r.1.2, {st with guidelines := env.guidelines_doc language})
    else (r.1.2, st)

/-- Model of `MessageHandler.command_ai`: a direct question to the LLM (no memory
context), storing the response as an Assistant turn. -/
def command_ai (cfg : Cfg) (env : HandlerEnv) (o : Oracles) (st : HState)
    (args username channel_id platform : String) : (Except Unit String) × HState :=
  if args = "" then (.ok ("Please provide a message after " ++ cfg.cmd_start ++ "ai"), st)
  else
    let r := generate_response env.know o.backend st.client args username platform channel_id
        (get_conversation_history st.history username channel_id) ""
    let st := {st with client := r.2}
    match r.1.result with
    | .error e => (.error e, st)
    | .ok response =>
      (.ok response,
       {st with history := store_message st.history username channel_id "Assistant" response})

/-- Model of `MessageHandler.command_ask_as_persona`: question a specific persona
without changing the current one; the stored and returned text carries the
upper-cased persona tag. -/
def command_ask_as_persona (cfg : Cfg) (env : HandlerEnv) (o : Oracles) (st : HState)
    (args username channel_id platform : String) : (Except Unit String) × HState :=
  if args = "" then (.ok ("Usage: " ++ cfg.cmd_start ++ "ask <persona> <message>"), st)
  else
    let p := py_split_once args ' '
    match p.2 with
    | none => (.ok "Please provide both a persona name and a message.", st)
    | some message =>
      let persona := p.1
      if (AI_PERSONAS.lookup (py_lower persona)).isNone then
        (.ok ("Unknown persona \x27" ++ persona ++ "\x27. Available personas: "
          ++ String.intercalate ", " (AI_PERSONAS.map (fun kv => kv.1))), st)
      else
        let r := generate_persona_response env.know o.backend st.client message
            (py_lower persona) username platform channel_id
            (get_conversation_history st.history username channel_id) ""
        let st := {st with client := r.2}
        match r.1 with
        | .error e => (.error e, st)
        | .ok response =>
          let out := "[" ++ py_upper persona ++ "] " ++ response
          (.ok out,
           {st with history := store_message st.history username channel_id "Assistant" out})

/-- Model of `MessageHandler.command_manage_knowledge`. -/
def command_manage_knowledge (cfg : Cfg) (env : HandlerEnv) (st : HState) (args : String) :
    String × HState :=
  if args = "" then
    ("Usage:\n"
      ++ cfg.cmd_start ++ "knowledge list - List all knowledge files\n"
      ++ cfg.cmd_start ++ "knowledge activate <n> - Activate a knowledge file\n"
      ++ cfg.cmd_start ++ "knowledge deactivate <n> - Deactivate a knowledge file\n"
      ++ cfg.cmd_start ++ "knowledge status - Show active knowledge files", st)
  else
    let p := py_split_once args ' '
    let action := py_lower p.1
    if action = "list" then (list_knowledge_files env.know st.client, st)
    else if action = "status" then
      (if st.client.active_knowledge = [] then "No knowledge files are currently active."
       else "Active knowledge files: " ++ String.intercalate ", " st.client.active_knowledge, st)
    else if action = "activate" ∧ p.2.isSome then
      let r := activate_knowledge env.know st.client (py_strip (p.2.getD ""))
      (r.1.2, {st with client := r.2})
    else if action = "deactivate" ∧ p.2.isSome then
      let r := deactivate_knowledge st.client (py_strip (p.2.getD ""))
      (r.1.2, {st with client := r.2})
    else
      ("Invalid knowledge command. Type " ++ cfg.cmd_start
        ++ "knowledge for usage information.", st)

/-- Model of `MessageHandler.handle_command`: parse the command word and arguments,
refuse admin commands from non-master callers before any dispatch, re-check
admin status for the knowledge commands, dispatch through the command table,
and fall back to the unknown-command reply. -/
def handle_command (cfg : Cfg) (env : HandlerEnv) (o : Oracles) (st : HState)
    (command_text username channel_id platform : String) : (Except Unit String) × HState :=
  let p := py_split_once (py_strip command_text) ' '
  let command := py_lower p.1
  let args := p.2.getD ""
  if admin_commands.contains command ∧ !(is_master cfg username platform) then
    (.ok (denial_message command), st)
  else if command_names.contains command then
    if (command = "knowledge" ∨ command = "knowledges")
        ∧ !(is_master cfg username platform) then
      (.ok knowledge_denial_message, st)
    else if command = "help" then (.ok (command_help cfg username platform), st)
    else if command = "ping" then (.ok ("Pong! Bot is online. Platform: " ++ platform), st)
    else if command = "ai" then command_ai cfg env o st args username channel_id platform
    else if command = "persona" then
      let r := command_persona st.client args
      (.ok r.1, {st with client := r.2})
    else if command = "personas" then (.ok (command_list_personas st.client), st)
    else if command = "ask" then
      command_ask_as_persona cfg env o st args username channel_id platform
    else if command = "language" then
      let r := command_language env st args
      (.ok r.1, r.2)
    else if command = "languages" then (.ok (command_list_languages st.client), st)
    else if command = "knowledge" then
      let r := command_manage_knowledge cfg env st args
      (.ok r.1, r.2)
    else if command = "knowledges" then (.ok (list_knowledge_files env.know st.client), st)
    else if command = "memory" then
      let r := env.memory_cmd st args
      (.ok r.1, r.2)
    else
      let r := env.intent_cmd st args
      (.ok r.1, r.2)
  else (.ok (unknown_command_message cfg command), st)

/-- The trigger detection of `process_message` for non-Discord platforms:
the lower-cased trigger phrase as a substring (as is, without its `@`, or
space-stripped against the space-stripped message), or a user-mention token
(the mention of the bot itself when its id is known; any mention when the id is missing or
empty, which are both falsy in the source). -/
def is_triggered (cfg : Cfg) (message : String) : Bool :=
  let trigger_phrase := py_lower cfg.trigger
  let message_lower := py_lower message
  let by_phrase := py_contains message_lower trigger_phrase
    || py_contains message_lower (py_remove_all trigger_phrase "@")
    || py_contains (py_remove_all message_lower " ") (py_remove_all trigger_phrase " ")
  let by_mention :=
    if py_contains message "<@" && py_contains message ">" then
      match cfg.discord_bot_id with
      | some bid => if bid ≠ "" then py_contains message ("<@" ++ bid ++ ">") else true
      | none => true
    else false
  by_phrase || by_mention

/-- The channel-name heuristic of `process_message`: on Discord, the last
`-`-separated part of the channel id when it has several parts. -/
def channel_name_of (platform channel_id : String) : String :=
  if platform = "discord" then
    (if 1 < (py_split_char channel_id.data '-').length then
      String.mk ((py_split_char channel_id.data '-').getLastD [])
    else channel_id)
  else channel_id

/-- Model of `MessageHandler.process_message`: store the inbound text as a User turn,
then in priority order: command dispatch, the Discord intent path, the
forced Discord LLM path, the trigger path, the probabilistic should-respond
path, otherwise no response. -/
def process_message (cfg : Cfg) (env : HandlerEnv) (o : Oracles) (st : HState)
    (message username channel_id platform : String) :
    (Except Unit (Option String)) × HState :=
  let st := {st with history := store_message st.history username channel_id "User" message}
  let channel_name := channel_name_of platform channel_id
  if py_starts message cfg.cmd_start then
    let r := handle_command cfg env o st (py_drop message cfg.cmd_start.data.length)
        username channel_id platform
    (Except.map some r.1, r.2)
  else
    let ir := o.intent_analyze message channel_name
    if platform = "discord" ∧ cfg.enable_intent ∧ (ir.1 ∧ truthy ir.2) then
      let response := ir.2.getD ""
      (.ok (some response),
       {st with history := store_message st.history username channel_id "Assistant" response})
    else if platform = "discord" then
      let r := handle_ai_request cfg env o st message username channel_id platform
      (Except.map some r.1, r.2)
    else if cfg.enable_ai ∧ is_triggered cfg message then
      let r := handle_ai_request cfg env o st message username channel_id platform
      (Except.map some r.1, r.2)
    else if cfg.enable_ai ∧ o.random_hit ∧ (o.ollama_analyze.1 ∧ truthy o.ollama_analyze.2) then
      let response := o.ollama_analyze.2.getD ""
      (.ok (some response),
       {st with history := store_message st.history username channel_id "Assistant" response})
    else (.ok none, st)

/-! Concrete instances used by the closed witness and counterexample
theorems. -/

/-- Default-valued configuration (the config defaults: "!" command marker,
"@bot" trigger, masters set to named users, memory threshold 0.75, max
results 5). -/
def cfg0 : Cfg :=
  ⟨"!", "@bot", true, true, "boss_d", "boss_t", none, 3 / 4, 5⟩

/-- An empty knowledge directory. -/
def kenv0 : KnowEnv := ⟨[], fun _ => none⟩

/-- A freshly initialized client (default persona, Spanish, no active
knowledge). -/
def oc0 : OClient := ⟨"default", "spanish", []⟩

/-- A fresh handler state with vector memory disabled. -/
def st0 : HState := ⟨fun _ => [], false, ⟨[], []⟩, oc0, ""⟩

/-- A handler environment with an empty knowledge directory and a constant
unit embedding distance. -/
def env0 : HandlerEnv :=
  ⟨kenv0, fun _ _ => 1, fun _ => "", fun st _ => ("", st), fun st _ => ("", st)⟩

/-- Oracles for a quiet call: a healthy backend, no intent hit, no random
hit. -/
def o0 : Oracles :=
  ⟨fun _ _ => .httpResponse 200 (.parsed (some "ok")), fun _ _ => (false, none), false,
   (false, none), "0", "0"⟩

/-- A backend whose every request times out. -/
def backend_timeout : String → Nat → AttemptOutcome := fun _ _ => .timeout

/-- A backend that answers every request with status 200 and content
"hola". -/
def backend_ok : String → Nat → AttemptOutcome :=
  fun _ _ => .httpResponse 200 (.parsed (some "hola"))

/-- An embedding distance that is 0 between equal texts and 1 otherwise. -/
def dist_eq : String → String → ℚ := fun a b => if a = b then 0 else 1

/-! Theorems.  Helper lemmas first, then one theorem per claim (with closed
witnesses and counterexamples where required). -/

theorem last_n_length_le (n : Nat) (l : List α) : (last_n n l).length ≤ n := by
  simp [last_n]
  omega

theorem cap_eq_last_n (l : List α) :
    (if 20 < l.length then l.drop (l.length - 20) else l) = last_n 20 l := by
  unfold last_n
  split
  · rfl
  · have h : l.length - 20 = 0 := by omega
    rw [h, List.drop_zero]

theorem store_message_self (h : String → List Turn) (u c role content : String) :
    store_message h u c role content (conv_key u c)
      = last_n 20 (h (conv_key u c) ++ [⟨role, content⟩]) := by
  unfold store_message
  simp only [if_pos rfl]
  exact cap_eq_last_n _

theorem store_message_other (h : String → List Turn) (u c role content : String)
    (k : String) (hk : k ≠ conv_key u c) :
    store_message h u c role content k = h k := by
  simp [store_message, hk]

theorem last_n_drop (n k : Nat) (l : List α) (hk : k ≤ l.length - n) :
    last_n n (l.drop k) = last_n n l := by
  unfold last_n
  rw [List.drop_drop]
  congr 1
  simp only [List.length_drop]
  omega

theorem last_n_append_left (n : Nat) (a b : List α) :
    last_n n (last_n n a ++ b) = last_n n (a ++ b) := by
  have h1 : last_n n a ++ b = (a ++ b).drop (a.length - n) := by
    unfold last_n
    exact (List.drop_append_of_le_length (by omega)).symm
  rw [h1]
  apply last_n_drop
  simp only [List.length_append]
  omega

/-- C1: for every conversation key and every sequence of `store_message`
calls, the stored buffer for that key is exactly the last 20 turns ever
stored under it, in storage order — so the buffer never exceeds 20 turns,
eviction is FIFO (the oldest turn goes first), and the relative order of the
surviving turns is preserved. -/
theorem conversation_history_fifo (events : List StoreEv) (key : String) :
    run_store events key = last_n 20 (events_for key events)
      ∧ (run_store events key).length ≤ 20 := by
  have main : ∀ evs : List StoreEv, run_store evs key = last_n 20 (events_for key evs) := by
    intro evs
    induction evs using List.reverseRecOn with
    | nil => simp [run_store, events_for, last_n]
    | append_singleton es e ih =>
      have hr : run_store (es ++ [e])
          = store_message (run_store es) e.username e.channel_id e.role e.content := by
        simp [run_store, List.foldl_append]
      rw [hr]
      by_cases hk : key = conv_key e.username e.channel_id
      · subst hk
        rw [store_message_self, ih, last_n_append_left]
        congr 1
        simp [events_for, List.filterMap_append]
      · rw [store_message_other _ _ _ _ _ _ hk, ih]
        have he : events_for key (es ++ [e]) = events_for key es := by
          unfold events_for
          rw [List.filterMap_append]
          have h0 : (if conv_key e.username e.channel_id = key
              then some (⟨e.role, e.content⟩ : Turn) else none) = none :=
            if_neg (fun h => hk h.symm)
          simp [List.filterMap, h0]
        rw [he]
  refine ⟨main events, ?_⟩
  rw [main events]
  exact last_n_length_le _ _

theorem run_attempts_all_timeout (b : Nat → AttemptOutcome) (hb : ∀ n, b n = .timeout) :
    run_attempts b 2 0 1 [] = ⟨.ok timeout_message, 3, [1, 2]⟩ := by
  rw [run_attempts, hb 0]
  simp only [Nat.reduceLeDiff, dite_false]
  rw [run_attempts, hb 1]
  simp only [Nat.reduceLeDiff, dite_false]
  rw [run_attempts, hb 2]
  simp

/-- C2: against a backend whose every request times out, `generate_response`
makes exactly 3 attempts, sleeps 1 then 2 time units between them
(exponential backoff), returns the timeout-specific apology — distinct from
the connection-error, HTTP-error and malformed-response apologies — and
never raises to the caller (the result is an `.ok` value). -/
theorem generate_response_always_timeout (env : KnowEnv)
    (backend : String → Nat → AttemptOutcome) (st : OClient)
    (message username platform channel_id : String)
    (hist : List Turn) (memory_context : String)
    (hb : ∀ p n, backend p n = AttemptOutcome.timeout) :
    (generate_response env backend st message username platform channel_id
        hist memory_context).1 = ⟨.ok timeout_message, 3, [1, 2]⟩
      ∧ timeout_message ≠ http_error_message
      ∧ timeout_message ≠ client_error_message
      ∧ timeout_message ≠ malformed_message := by
  refine ⟨?_, by decide, by decide, by decide⟩
  show run_attempts _ 2 0 1 [] = _
  exact run_attempts_all_timeout _ (fun n => hb _ n)

/-- C2 witness: the theorem applied to a concrete always-timeout backend. -/
theorem generate_response_always_timeout_witness :
    (∀ p n, backend_timeout p n = AttemptOutcome.timeout)
      ∧ (generate_response kenv0 backend_timeout oc0 "hola" "u" "twitch" "c" [] "").1
          = ⟨.ok timeout_message, 3, [1, 2]⟩ :=
  ⟨fun _ _ => rfl,
   (generate_response_always_timeout kenv0 backend_timeout oc0 "hola" "u" "twitch" "c" [] ""
      (fun _ _ => rfl)).1⟩

/-- C3: an admin-only command (persona, language, languages, knowledge,
knowledges, memory, intent) invoked through `handle_command` by a caller who
is not the configured master user for their platform returns the fixed
denial message and leaves the whole handler state — persona, language,
active knowledge, channel guidelines, histories, memory — exactly as it was;
no command handler runs. -/
theorem handle_command_unauthorized_admin (cfg : Cfg) (env : HandlerEnv) (o : Oracles)
    (st : HState) (command_text username channel_id platform : String)
    (hadm : admin_commands.contains
      (py_lower (py_split_once (py_strip command_text) ' ').1) = true)
    (hmaster : is_master cfg username platform = false) :
    handle_command cfg env o st command_text username channel_id platform
      = (.ok (denial_message (py_lower (py_split_once (py_strip command_text) ' ').1)), st) := by
  unfold handle_command
  have hadm' : py_lower (py_split_once (py_strip command_text) ' ').1 ∈ admin_commands := by
    simpa using hadm
  simp [hadm', hmaster]

/-- C3 witness: a non-master Twitch user issuing `persona streamer` gets the
denial and an unchanged state. -/
theorem handle_command_unauthorized_admin_witness :
    (admin_commands.contains
        (py_lower (py_split_once (py_strip "persona streamer") ' ').1) = true)
      ∧ (is_master cfg0 "mallory" "twitch" = false)
      ∧ handle_command cfg0 env0 o0 st0 "persona streamer" "mallory" "chan" "twitch"
          = (.ok (denial_message "persona"), st0) := by
  refine ⟨by decide, by decide, ?_⟩
  have h := handle_command_unauthorized_admin cfg0 env0 o0 st0 "persona streamer"
    "mallory" "chan" "twitch" (by decide) (by decide)
  have e : py_lower (py_split_once (py_strip "persona streamer") ' ').1 = "persona" := by decide
  rw [e] at h
  exact h

theorem search_results_threshold (dist : String → String → ℚ) (threshold : ℚ)
    (st : MemState) (query : String) (cname : Option String)
    (filt : Option (List (String × String))) (eff : Nat) :
    ∀ h ∈ search_results dist threshold st query cname filt eff,
      threshold ≤ h.similarity := by
  intro h hmem
  unfold search_results at hmem
  obtain ⟨cp, _, hmem2⟩ := List.mem_flatMap.mp hmem
  obtain ⟨rd, _, hg⟩ := List.mem_filterMap.mp hmem2
  dsimp only at hg
  by_cases hsim : threshold ≤ (if rd.2 ≤ 1 then 1 - rd.2 else (0 : ℚ))
  · rw [if_pos hsim] at hg
    cases hg
    exact hsim
  · rw [if_neg hsim] at hg
    exact absurd hg (by simp)

theorem sorted_by_similarity (l : List SearchHit) :
    List.Sorted (fun a b : SearchHit => b.similarity ≤ a.similarity)
      (List.insertionSort (fun a b => b.similarity ≤ a.similarity) l) := by
  haveI : IsTotal SearchHit (fun a b => b.similarity ≤ a.similarity) :=
    ⟨fun a b => le_total b.similarity a.similarity⟩
  haveI : IsTrans SearchHit (fun a b => b.similarity ≤ a.similarity) :=
    ⟨fun _ _ _ hab hbc => le_trans hbc hab⟩
  exact List.sorted_insertionSort _ l

/-- C4 counterexample: with the default configuration (threshold 0.75,
max_results 5) and one perfectly-matching stored conversation, a call with
the explicit limit 0 returns one result — more than the given limit — because
the Python expression `limit or self.max_results` treats 0 as absent. -/
theorem search_memory_zero_limit_cex :
    (search_memory dist_eq (3 / 4) 5 ⟨[⟨"doc", [("username", "u")], "id0"⟩], []⟩
      "doc" none none (some 0)).length = 1 := by
  norm_num [search_memory, search_sorted, search_results, search_pick, collection_query,
    effective_limit, dist_eq, List.insertionSort, List.orderedInsert, List.flatMap,
    List.filterMap_cons, List.filterMap_nil]

/-- C4 as amended: every result of `search_memory` has similarity at or above
the configured threshold, the results are sorted in non-increasing
similarity order, and their count is bounded by the effective limit — the
given limit when it is positive, and the configured max_results when the
limit is absent or zero. -/
theorem search_memory_spec (dist : String → String → ℚ) (threshold : ℚ)
    (max_results : Nat) (st : MemState) (query : String) (cname : Option String)
    (filt : Option (List (String × String))) (limit : Option Nat) :
    (∀ h ∈ search_memory dist threshold max_results st query cname filt limit,
        threshold ≤ h.similarity)
      ∧ List.Sorted (fun a b : SearchHit => b.similarity ≤ a.similarity)
          (search_memory dist threshold max_results st query cname filt limit)
      ∧ (search_memory dist threshold max_results st query cname filt limit).length
          ≤ effective_limit max_results limit := by
  unfold search_memory
  have hlen : (search_sorted dist threshold st query cname filt
        (effective_limit max_results limit)).length
      = (search_results dist threshold st query cname filt
        (effective_limit max_results limit)).length :=
    (List.perm_insertionSort _ _).length_eq
  refine ⟨?_, ?_, ?_⟩
  · intro h hmem
    have hmem2 : h ∈ search_sorted dist threshold st query cname filt
        (effective_limit max_results limit) := by
      split at hmem
      · exact (List.take_sublist _ _).mem hmem
      · exact hmem
    have hmem3 : h ∈ search_results dist threshold st query cname filt
        (effective_limit max_results limit) :=
      ((List.perm_insertionSort _ _).mem_iff).mp hmem2
    exact search_results_threshold _ _ _ _ _ _ _ h hmem3
  · split
    · exact List.Pairwise.sublist (List.take_sublist _ _) (sorted_by_similarity _)
    · exact sorted_by_similarity _
  · split
    · next hcond =>
      simp only [List.length_take]
      exact min_le_left _ _
    · next hcond =>
      by_cases h0 : effective_limit max_results limit = 0
      · have hq : ∀ cp : List MRec × String,
            (collection_query dist cp.1 query filt (effective_limit max_results limit)).filterMap
              (fun rd =>
                let sim : ℚ := if rd.2 ≤ 1 then 1 - rd.2 else 0
                if threshold ≤ sim then
                  some (⟨rd.1.content, rd.1.metadata, sim, cp.2⟩ : SearchHit)
                else none) = [] := by
          intro cp
          rw [h0]
          simp [collection_query]
        have hres : search_results dist threshold st query cname filt
            (effective_limit max_results limit) = [] := by
          unfold search_results
          rw [List.flatMap_eq_nil_iff.mpr (fun cp _ => hq cp)]
        rw [hlen, hres]
        simp
      · rw [hlen] at hcond ⊢
        omega

theorem collection_query_head_le (dist : String → String → ℚ) (docs : List MRec)
    (q : String) (r : MRec) (hr : r ∈ docs) :
    ∃ hd, (collection_query dist docs q none 1).head? = some hd
      ∧ hd.2 ≤ dist q r.content := by
  unfold collection_query
  dsimp only
  haveI : IsTotal (MRec × ℚ) (fun a b => a.2 ≤ b.2) := ⟨fun a b => le_total a.2 b.2⟩
  haveI : IsTrans (MRec × ℚ) (fun a b => a.2 ≤ b.2) := ⟨fun _ _ _ => le_trans⟩
  have hmem : (r, dist q r.content) ∈ docs.map (fun d => (d, dist q d.content)) :=
    List.mem_map_of_mem _ hr
  have hmem2 : (r, dist q r.content) ∈ List.insertionSort (fun a b => a.2 ≤ b.2)
      (docs.map (fun d => (d, dist q d.content))) :=
    ((List.perm_insertionSort _ _).mem_iff).mpr hmem
  have hsorted : List.Sorted (fun a b : MRec × ℚ => a.2 ≤ b.2)
      (List.insertionSort (fun a b => a.2 ≤ b.2) (docs.map (fun d => (d, dist q d.content)))) :=
    List.sorted_insertionSort _ _
  cases hs : List.insertionSort (fun a b => a.2 ≤ b.2)
      (docs.map (fun d => (d, dist q d.content))) with
  | nil =>
    rw [hs] at hmem2
    cases hmem2
  | cons hd tl =>
    refine ⟨hd, by simp [hs], ?_⟩
    rw [hs] at hmem2 hsorted
    rcases List.mem_cons.mp hmem2 with h1 | h2
    · rw [← h1]
    · exact (List.pairwise_cons.mp hsorted).1 _ h2

/-- C6: storing the same content twice is idempotent.  When the content is
not already near-duplicated in the store, the embedding distance of the
content to itself is 0 (similarity 1.0) and the threshold is at most 1, the
first `store_conversation` call inserts exactly one record and returns true,
and the second call (whose nearest-neighbour query finds the first record at
similarity 1.0 ≥ threshold) skips insertion, returns false, and leaves the
store exactly as after the first call. -/
theorem store_conversation_idempotent (dist : String → String → ℚ) (threshold : ℚ)
    (st : MemState) (content username platform channel_id role ts1 ts2 : String)
    (hd0 : dist content content = 0)
    (hth : threshold ≤ 1)
    (hfresh : is_duplicate dist threshold st "conversations" content = false) :
    (store_conversation dist threshold st content username platform channel_id role ts1).1 = true
      ∧ (store_conversation dist threshold st content username platform channel_id
          role ts1).2.conversations.length = st.conversations.length + 1
      ∧ (store_conversation dist threshold
          (store_conversation dist threshold st content username platform channel_id role ts1).2
          content username platform channel_id role ts2).1 = false
      ∧ (store_conversation dist threshold
          (store_conversation dist threshold st content username platform channel_id role ts1).2
          content username platform channel_id role ts2).2
        = (store_conversation dist threshold st content username platform channel_id role ts1).2 := by
  have h1 : store_conversation dist threshold st content username platform channel_id role ts1
      = (true, {st with conversations := st.conversations
          ++ [⟨content, [("username", username), ("platform", platform),
                ("channel_id", channel_id), ("role", role), ("timestamp", ts1)],
              generate_id content [("username", username), ("platform", platform),
                ("channel_id", channel_id), ("role", role), ("timestamp", ts1)]⟩]}) := by
    unfold store_conversation
    rw [hfresh]
    rfl
  have hconvname : py_lower "conversations" = "conversations" := by decide
  have hdup : is_duplicate dist threshold
      (store_conversation dist threshold st content username platform channel_id role ts1).2
      "conversations" content = true := by
    rw [h1]
    unfold is_duplicate collection_of
    rw [if_pos hconvname]
    dsimp only
    obtain ⟨hd, hhead, hle⟩ := collection_query_head_le dist
      (st.conversations ++ [⟨content, [("username", username), ("platform", platform),
          ("channel_id", channel_id), ("role", role), ("timestamp", ts1)],
        generate_id content [("username", username), ("platform", platform),
          ("channel_id", channel_id), ("role", role), ("timestamp", ts1)]⟩])
      content
      ⟨content, [("username", username), ("platform", platform),
          ("channel_id", channel_id), ("role", role), ("timestamp", ts1)],
        generate_id content [("username", username), ("platform", platform),
          ("channel_id", channel_id), ("role", role), ("timestamp", ts1)]⟩
      (List.mem_append_right _ (List.mem_singleton.mpr rfl))
    rw [hhead]
    rw [hd0] at hle
    exact decide_eq_true (by linarith)
  have h2 : store_conversation dist threshold
      (store_conversation dist threshold st content username platform channel_id role ts1).2
      content username platform channel_id role ts2
      = (false,
        (store_conversation dist threshold st content username platform channel_id role ts1).2) := by
    generalize hst1 :
      (store_conversation dist threshold st content username platform channel_id role ts1).2 = st1
    rw [hst1] at hdup
    unfold store_conversation
    rw [hdup]
    rfl
  exact ⟨by rw [h1], by rw [h1]; simp, by rw [h2], by rw [h2]⟩

/-- C6 witness: the theorem applied to the empty store, the equality-based
embedding distance and the default 0.75 threshold. -/
theorem store_conversation_idempotent_witness :
    dist_eq "hola" "hola" = 0
      ∧ ((3 : ℚ) / 4 ≤ 1)
      ∧ is_duplicate dist_eq (3 / 4) ⟨[], []⟩ "conversations" "hola" = false
      ∧ (store_conversation dist_eq (3 / 4) ⟨[], []⟩ "hola" "u" "twitch" "c" "user" "1").1 = true
      ∧ (store_conversation dist_eq (3 / 4)
          (store_conversation dist_eq (3 / 4) ⟨[], []⟩ "hola" "u" "twitch" "c" "user" "1").2
          "hola" "u" "twitch" "c" "user" "2").1 = false := by
  have hd0 : dist_eq "hola" "hola" = 0 := by norm_num [dist_eq]
  have hth : ((3 : ℚ) / 4 ≤ 1) := by norm_num
  have hfresh : is_duplicate dist_eq (3 / 4) ⟨[], []⟩ "conversations" "hola" = false := by
    have hcn : py_lower "conversations" = "conversations" := by decide
    simp [is_duplicate, collection_of, hcn, collection_query, List.insertionSort]
  have h := store_conversation_idempotent dist_eq (3 / 4) ⟨[], []⟩ "hola" "u" "twitch" "c"
    "user" "1" "2" hd0 hth hfresh
  exact ⟨hd0, hth, hfresh, h.1, h.2.2.1⟩

theorem join_append (l1 l2 : List String) :
    String.join (l1 ++ l2) = String.join l1 ++ String.join l2 := by
  apply String.ext
  simp [String.join_eq]

theorem join_singleton (x : String) : String.join [x] = x := by
  apply String.ext
  simp [String.join_eq]

theorem join_nil : String.join [] = "" := rfl

theorem stream_step_inv (st : StreamState) (l : StreamLine)
    (hinv : String.join st.yields ++ st.buffer = st.full)
    (hstop : st.stopped = true → st.buffer = "") :
    (String.join (stream_step st l).yields ++ (stream_step st l).buffer
        = (stream_step st l).full)
      ∧ ((stream_step st l).stopped = true → (stream_step st l).buffer = "") := by
  unfold stream_step
  by_cases hs : st.stopped
  · simp only [hs, if_true]
    exact ⟨hinv, fun _ => hstop hs⟩
  · simp only [hs, if_false]
    cases l with
    | blank => exact ⟨hinv, fun h => hstop h⟩
    | badJson => exact ⟨hinv, fun h => hstop h⟩
    | chunk content done_key =>
      dsimp only
      have step1 : ∀ st1 : StreamState,
          (String.join st1.yields ++ st1.buffer = st1.full) →
          (st1.stopped = false) →
          (String.join (if done_key = some true then
              if st1.buffer ≠ "" then
                {st1 with buffer := "", yields := st1.yields ++ [st1.buffer], stopped := true}
              else {st1 with stopped := true}
            else st1).yields
            ++ (if done_key = some true then
              if st1.buffer ≠ "" then
                {st1 with buffer := "", yields := st1.yields ++ [st1.buffer], stopped := true}
              else {st1 with stopped := true}
            else st1).buffer
            = (if done_key = some true then
              if st1.buffer ≠ "" then
                {st1 with buffer := "", yields := st1.yields ++ [st1.buffer], stopped := true}
              else {st1 with stopped := true}
            else st1).full)
          ∧ ((if done_key = some true then
              if st1.buffer ≠ "" then
                {st1 with buffer := "", yields := st1.yields ++ [st1.buffer], stopped := true}
              else {st1 with stopped := true}
            else st1).stopped = true
            → (if done_key = some true then
              if st1.buffer ≠ "" then
                {st1 with buffer := "", yields := st1.yields ++ [st1.buffer], stopped := true}
              else {st1 with stopped := true}
            else st1).buffer = "") := by
        intro st1 hinv1 hst1
        by_cases hdk : done_key = some true
        · by_cases hb : st1.buffer = ""
          · simp only [hdk, if_true, hb, ne_eq, not_true_eq_false, if_false]
            rw [hb] at hinv1
            exact ⟨hinv1, fun _ => trivial⟩
          · simp only [hdk, if_true, ne_eq, hb, not_false_eq_true, if_true]
            refine ⟨?_, fun _ => trivial⟩
            dsimp only
            rw [join_append, join_singleton]
            simpa using hinv1
        · simp only [hdk, if_false]
          refine ⟨hinv1, fun h => ?_⟩
          rw [hst1] at h
          exact absurd h (by simp)
      have hs' : st.stopped = false := by simpa using hs
      cases content with
      | none => exact step1 st hinv hs'
      | some ch =>
        by_cases hch : ch = ""
        · simp only [hch, ne_eq, not_true_eq_false, if_false]
          exact step1 st hinv hs'
        · simp only [ne_eq, hch, not_false_eq_true, if_true]
          by_cases hflush : 4 ≤ (st.buffer ++ ch).length ∨ done_key ≠ none
          · simp only [hflush, if_true]
            refine step1 _ ?_ rfl
            dsimp only
            rw [join_append, join_singleton]
            rw [← hinv]
            simp [String.append_assoc]
          · simp only [hflush, if_false]
            refine step1 _ ?_ rfl
            dsimp only
            rw [← hinv]
            simp [String.append_assoc]

theorem stream_fold_inv (lines : List StreamLine) (st : StreamState)
    (hinv : String.join st.yields ++ st.buffer = st.full)
    (hstop : st.stopped = true → st.buffer = "") :
    (String.join (lines.foldl stream_step st).yields ++ (lines.foldl stream_step st).buffer
        = (lines.foldl stream_step st).full)
      ∧ ((lines.foldl stream_step st).stopped = true
        → (lines.foldl stream_step st).buffer = "") := by
  induction lines generalizing st with
  | nil => exact ⟨hinv, hstop⟩
  | cons l rest ih =>
    have h := stream_step_inv st l hinv hstop
    exact ih (stream_step st l) h.1 h.2

/-- C7 counterexample: a 200-status stream delivering the content "ab" on a
line without a `done` key and then ending by exhaustion yields nothing (the
2-character buffer is below the 4-character flush threshold and is never
flushed), so the concatenation of the yielded fragments is not the assembled
full response "ab". -/
theorem stream_concat_cex :
    String.join (stream_result (.ok 200 [.chunk (some "ab") none])).1
      ≠ (stream_result (.ok 200 [.chunk (some "ab") none])).2 := by decide

/-- C7 as amended: when the backend returns status 200, no timeout or
connection error occurs, the stream terminates with a `done: true` marker,
and at least one content character was received, the concatenation of the
yielded fragments equals the assembled full response.  (On termination by
exhaustion an unflushed tail — under 4 characters, from lines without a
`done` key — is dropped, and when no content at all was received a fixed
fallback fragment is yielded instead.) -/
theorem stream_concat_complete (env : KnowEnv) (st : OClient)
    (message username platform channel_id : String) (hist : List Turn)
    (memory_context : String) (lines : List StreamLine)
    (hdone : (lines.foldl stream_step stream_init).stopped = true)
    (hfull : (lines.foldl stream_step stream_init).full ≠ "") :
    String.join (generate_response_stream env st message username platform channel_id
        hist memory_context (.ok 200 lines)).1.1
      = (generate_response_stream env st message username platform channel_id
        hist memory_context (.ok 200 lines)).1.2 := by
  have h := stream_fold_inv lines stream_init (by simp [stream_init, join_nil])
    (by simp [stream_init])
  have hbuf : (lines.foldl stream_step stream_init).buffer = "" := h.2 hdone
  have hjoin : String.join (lines.foldl stream_step stream_init).yields
      = (lines.foldl stream_step stream_init).full := by
    rw [← h.1, hbuf]
    simp
  show String.join (stream_result (.ok 200 lines)).1 = (stream_result (.ok 200 lines)).2
  unfold stream_result
  dsimp only
  rw [if_neg (by simp : ¬(200 ≠ 200))]
  rw [if_neg hfull]
  exact hjoin

/-- C7 witness: a stream that sends "Hola" and a `done: true` marker
satisfies the hypotheses of the amended theorem, and its single yield
reconstructs the full response. -/
theorem stream_concat_complete_witness :
    (([StreamLine.chunk (some "Hola") (some true)].foldl stream_step stream_init).stopped = true)
      ∧ (([StreamLine.chunk (some "Hola") (some true)].foldl stream_step stream_init).full ≠ "")
      ∧ String.join (generate_response_stream kenv0 oc0 "q" "u" "twitch" "c" [] ""
          (.ok 200 [StreamLine.chunk (some "Hola") (some true)])).1.1
        = (generate_response_stream kenv0 oc0 "q" "u" "twitch" "c" [] ""
          (.ok 200 [StreamLine.chunk (some "Hola") (some true)])).1.2 :=
  ⟨by decide, by decide,
   stream_concat_complete kenv0 oc0 "q" "u" "twitch" "c" [] ""
     [StreamLine.chunk (some "Hola") (some true)] (by decide) (by decide)⟩

/-- C8: the cleaned text that `handle_ai_request` and
`handle_ai_request_stream` pass downstream to the LLM equals the lower-cased
message with the lower-cased trigger phrase deleted and surrounding
whitespace stripped, replaced by the fixed greeting "Hello!" when that
result is empty — so the downstream text is never the empty string. -/
theorem clean_ai_message_spec (trigger message : String) :
    clean_ai_message trigger message ≠ ""
      ∧ clean_ai_message trigger message
        = (if py_strip (py_remove_all (py_lower message) (py_lower trigger)) = ""
           then "Hello!"
           else py_strip (py_remove_all (py_lower message) (py_lower trigger))) := by
  refine ⟨?_, rfl⟩
  unfold clean_ai_message
  dsimp only
  split
  · decide
  · next h => exact h

/-- C10: `generate_persona_response` answers with exactly the result of
`generate_response` run with the client temporarily switched to the
requested persona (so the prompt of the requested persona is used), and when
the inner call completes normally the client field `current_persona` is
restored to its value from before the call. -/
theorem generate_persona_response_spec (env : KnowEnv)
    (backend : String → Nat → AttemptOutcome) (st : OClient)
    (message persona username platform channel_id : String)
    (hist : List Turn) (mc : String) :
    (generate_persona_response env backend st message persona username platform
        channel_id hist mc).1
        = (generate_response env backend {st with current_persona := persona}
            message username platform channel_id hist mc).1.result
      ∧ ((generate_response env backend {st with current_persona := persona}
            message username platform channel_id hist mc).1.result.isOk = true
         → (generate_persona_response env backend st message persona username platform
              channel_id hist mc).2.current_persona = st.current_persona) := by
  unfold generate_persona_response
  cases hres : (generate_response env backend {st with current_persona := persona}
      message username platform channel_id hist mc).1.result with
  | ok r =>
    refine ⟨?_, fun _ => ?_⟩ <;> simp [hres]
  | error e =>
    refine ⟨?_, fun hok => ?_⟩
    · simp [hres]
    · simp [hres, Except.isOk, Except.toBool] at hok

/-- C10 witness: asking the comedian persona a question against a healthy
backend restores the default persona and returns the answer of the inner call. -/
theorem generate_persona_response_spec_witness :
    ((generate_response kenv0 backend_ok
        {oc0 with current_persona := "comedian"} "hola" "u" "twitch" "c" [] "").1.result.isOk
      = true)
      ∧ (generate_persona_response kenv0 backend_ok oc0 "hola" "comedian" "u" "twitch"
          "c" [] "").2.current_persona = oc0.current_persona := by
  have hisok : (generate_response kenv0 backend_ok
      {oc0 with current_persona := "comedian"} "hola" "u" "twitch" "c" [] "").1.result.isOk
      = true := by
    show (run_attempts (backend_ok _) 2 0 1 []).result.isOk = true
    rw [run_attempts]
    rfl
  exact ⟨hisok, (generate_persona_response_spec kenv0 backend_ok oc0 "hola" "comedian" "u"
    "twitch" "c" [] "").2 hisok⟩

theorem handle_ai_request_ok_hist (cfg : Cfg) (env : HandlerEnv) (o : Oracles) (st : HState)
    (message username channel_id platform : String) (resp : String)
    (h : (handle_ai_request cfg env o st message username channel_id platform).1 = .ok resp) :
    (handle_ai_request cfg env o st message username channel_id platform).2.history
        (conv_key username channel_id)
      = last_n 20 (st.history (conv_key username channel_id) ++ [⟨"Assistant", resp⟩]) := by
  unfold handle_ai_request at h ⊢
  by_cases hm : st.mem_enabled <;>
    simp only [hm, if_true, if_false, Bool.false_eq_true] at h ⊢ <;>
    (try dsimp only at h ⊢) <;>
    [cases hX : (generate_response env.know o.backend st.client
        (clean_ai_message cfg.trigger message) username platform channel_id
        (get_conversation_history
          ({st with mem := (store_conversation env.dist cfg.sim_threshold st.mem
            (clean_ai_message cfg.trigger message) username platform channel_id "user"
            o.now1).2}).history username channel_id)
        (get_relevant_context env.dist cfg.sim_threshold cfg.max_results
          (store_conversation env.dist cfg.sim_threshold st.mem
            (clean_ai_message cfg.trigger message) username platform channel_id "user"
            o.now1).2
          (clean_ai_message cfg.trigger message) username channel_id platform)).1.result;
     cases hX : (generate_response env.know o.backend st.client
        (clean_ai_message cfg.trigger message) username platform channel_id
        (get_conversation_history st.history username channel_id) "").1.result] <;>
    simp only [hX] at h ⊢
  · exact absurd h (by simp)
  · cases h
    rw [store_message_self]
  · exact absurd h (by simp)
  · cases h
    rw [store_message_self]

theorem handle_ai_request_err_hist (cfg : Cfg) (env : HandlerEnv) (o : Oracles) (st : HState)
    (message username channel_id platform : String) (e : Unit)
    (h : (handle_ai_request cfg env o st message username channel_id platform).1 = .error e) :
    (handle_ai_request cfg env o st message username channel_id platform).2.history
      = st.history := by
  unfold handle_ai_request at h ⊢
  by_cases hm : st.mem_enabled <;>
    simp only [hm, if_true, if_false, Bool.false_eq_true] at h ⊢ <;>
    (try dsimp only at h ⊢) <;>
    [cases hX : (generate_response env.know o.backend st.client
        (clean_ai_message cfg.trigger message) username platform channel_id
        (get_conversation_history
          ({st with mem := (store_conversation env.dist cfg.sim_threshold st.mem
            (clean_ai_message cfg.trigger message) username platform channel_id "user"
            o.now1).2}).history username channel_id)
        (get_relevant_context env.dist cfg.sim_threshold cfg.max_results
          (store_conversation env.dist cfg.sim_threshold st.mem
            (clean_ai_message cfg.trigger message) username platform channel_id "user"
            o.now1).2
          (clean_ai_message cfg.trigger message) username channel_id platform)).1.result;
     cases hX : (generate_response env.know o.backend st.client
        (clean_ai_message cfg.trigger message) username platform channel_id
        (get_conversation_history st.history username channel_id) "").1.result] <;>
    simp only [hX] at h ⊢
  · exact absurd h (by simp)
  · exact absurd h (by simp)

theorem hist_compose (base : List Turn) (t1 t2 : Turn) :
    last_n 20 (last_n 20 (base ++ [t1]) ++ [t2]) = last_n 20 (base ++ [t1, t2]) := by
  rw [last_n_append_left]
  congr 1
  simp

theorem store_store_self (h : String → List Turn) (u c t1r t1c t2r t2c : String) :
    store_message (store_message h u c t1r t1c) u c t2r t2c (conv_key u c)
      = last_n 20 (h (conv_key u c) ++ [⟨t1r, t1c⟩, ⟨t2r, t2c⟩]) := by
  rw [store_message_self, store_message_self, hist_compose]

/-- C5 as amended: on every non-command path, `process_message` appends the
inbound text as one User turn, and appends exactly one Assistant turn —
whose content is the returned response — precisely when a response is
produced; silently-ignored messages (and calls that propagate an exception)
append no Assistant turn.  (Command dispatch, excluded here, can produce a
response without an Assistant turn — see the counterexample.) -/
theorem process_message_non_command_appends (cfg : Cfg) (env : HandlerEnv) (o : Oracles)
    (st : HState) (message username channel_id platform : String)
    (hnc : py_starts message cfg.cmd_start = false) :
    (∀ resp, (process_message cfg env o st message username channel_id platform).1
        = .ok (some resp) →
      (process_message cfg env o st message username channel_id platform).2.history
          (conv_key username channel_id)
        = last_n 20 (st.history (conv_key username channel_id)
            ++ [⟨"User", message⟩, ⟨"Assistant", resp⟩]))
    ∧ ((process_message cfg env o st message username channel_id platform).1 = .ok none →
      (process_message cfg env o st message username channel_id platform).2.history
          (conv_key username channel_id)
        = last_n 20 (st.history (conv_key username channel_id) ++ [⟨"User", message⟩]))
    ∧ (∀ e, (process_message cfg env o st message username channel_id platform).1
        = .error e →
      (process_message cfg env o st message username channel_id platform).2.history
          (conv_key username channel_id)
        = last_n 20 (st.history (conv_key username channel_id) ++ [⟨"User", message⟩])) := by
  unfold process_message
  simp only [hnc, Bool.false_eq_true, if_false]
  generalize hG :
    ({st with history := store_message st.history username channel_id "User" message}
      : HState) = st1
  have hst1h : st1.history (conv_key username channel_id)
      = last_n 20 (st.history (conv_key username channel_id) ++ [⟨"User", message⟩]) := by
    rw [← hG]
    exact store_message_self _ _ _ _ _
  by_cases hI : platform = "discord" ∧ cfg.enable_intent
      ∧ ((o.intent_analyze message (channel_name_of platform channel_id)).1
        ∧ truthy (o.intent_analyze message (channel_name_of platform channel_id)).2)
  · rw [if_pos hI]
    refine ⟨fun resp h => ?_, fun h => ?_, fun e h => ?_⟩
    · cases h
      exact store_store_self _ _ _ _ _ _ _
    · exact absurd h (by simp)
    · exact absurd h (by simp)
  · rw [if_neg hI]
    by_cases hd : platform = "discord"
    · rw [if_pos hd]
      cases hr : (handle_ai_request cfg env o st1 message username channel_id platform).1 with
      | ok resp0 =>
        refine ⟨fun resp h => ?_, fun h => ?_, fun e h => ?_⟩
        · simp only [Except.map, Except.ok.injEq, Option.some.injEq] at h
          subst h
          have h2 := handle_ai_request_ok_hist cfg env o st1 message username channel_id
            platform resp0 hr
          dsimp only
          rw [h2, hst1h, hist_compose]
        · simp [Except.map] at h
        · simp [Except.map] at h
      | error e0 =>
        refine ⟨fun resp h => ?_, fun h => ?_, fun e h => ?_⟩
        · simp [Except.map] at h
        · simp [Except.map] at h
        · have h2 := handle_ai_request_err_hist cfg env o st1 message username channel_id
            platform e0 hr
          dsimp only
          rw [h2, hst1h]
    · rw [if_neg hd]
      by_cases ht : cfg.enable_ai ∧ is_triggered cfg message
      · rw [if_pos ht]
        cases hr : (handle_ai_request cfg env o st1 message username channel_id platform).1 with
        | ok resp0 =>
          refine ⟨fun resp h => ?_, fun h => ?_, fun e h => ?_⟩
          · simp only [Except.map, Except.ok.injEq, Option.some.injEq] at h
            subst h
            have h2 := handle_ai_request_ok_hist cfg env o st1 message username channel_id
              platform resp0 hr
            dsimp only
            rw [h2, hst1h, hist_compose]
          · simp [Except.map] at h
          · simp [Except.map] at h
        | error e0 =>
          refine ⟨fun resp h => ?_, fun h => ?_, fun e h => ?_⟩
          · simp [Except.map] at h
          · simp [Except.map] at h
          · have h2 := handle_ai_request_err_hist cfg env o st1 message username channel_id
              platform e0 hr
            dsimp only
            rw [h2, hst1h]
      · rw [if_neg ht]
        by_cases hp : cfg.enable_ai ∧ o.random_hit
            ∧ (o.ollama_analyze.1 ∧ truthy o.ollama_analyze.2)
        · rw [if_pos hp]
          refine ⟨fun resp h => ?_, fun h => ?_, fun e h => ?_⟩
          · cases h
            exact store_store_self _ _ _ _ _ _ _
          · exact absurd h (by simp)
          · exact absurd h (by simp)
        · rw [if_neg hp]
          refine ⟨fun resp h => ?_, fun h => ?_, fun e h => ?_⟩
          · exact absurd h (by simp)
          · exact hst1h
          · exact absurd h (by simp)

/-- C5 witness: a quiet non-command message on Twitch produces no response
and appends only the User turn. -/
theorem process_message_non_command_appends_witness :
    py_starts "hola" cfg0.cmd_start = false
      ∧ (process_message cfg0 env0 o0 st0 "hola" "alice" "chan" "twitch").2.history
          (conv_key "alice" "chan")
        = last_n 20 (st0.history (conv_key "alice" "chan") ++ [⟨"User", "hola"⟩]) := by
  refine ⟨by decide, ?_⟩
  exact (process_message_non_command_appends cfg0 env0 o0 st0 "hola" "alice" "chan" "twitch"
    (by decide)).2.1 (by rfl)

/-- C5 counterexample: the command path can produce a response without
appending any Assistant turn — processing "!ping" returns the pong reply
while the history of the key holds only the stored User turn. -/
theorem process_message_ping_cex :
    (process_message cfg0 env0 o0 st0 "!ping" "alice" "chan" "twitch").1
        = .ok (some "Pong! Bot is online. Platform: twitch")
      ∧ (process_message cfg0 env0 o0 st0 "!ping" "alice" "chan" "twitch").2.history
          (conv_key "alice" "chan") = [⟨"User", "!ping"⟩] := by
  constructor
  · rfl
  · rfl

theorem py_rfind_le (s sub : List Char) (p : Nat) (h : py_rfind s sub = some p) :
    p + sub.length ≤ s.length := by
  unfold py_rfind at h
  have h2 := List.find?_some h
  have h5 := List.mem_of_find?_eq_some h
  rw [List.mem_reverse, List.mem_range] at h5
  have h3 : (s.drop p).take sub.length = sub := of_decide_eq_true h2
  have h4 : ((s.drop p).take sub.length).length = sub.length := by rw [h3]
  simp only [List.length_take, List.length_drop] at h4
  omega

theorem find_boundary_spec (slice : List Char) (bl : List (List Char)) (q : Nat) :
    find_boundary slice 500 bl = some q → 250 < q ∧ q ≤ slice.length := by
  induction bl with
  | nil =>
    intro h
    simp [find_boundary] at h
  | cons b bs ih =>
    intro h
    unfold find_boundary at h
    cases hf : py_rfind slice b with
    | none =>
      simp only [hf] at h
      exact ih h
    | some p =>
      simp only [hf] at h
      by_cases hp : 500 / 2 < p
      · rw [if_pos hp] at h
        cases h
        have hle := py_rfind_le slice b p hf
        omega
      · rw [if_neg hp] at h
        exact ih h

theorem end_at_props (text : List Char) (start : Nat) (hs : start < text.length) :
    start < end_at text 500 start
      ∧ end_at text 500 start ≤ text.length
      ∧ end_at text 500 start - start ≤ 500
      ∧ (end_at text 500 start < text.length → 250 < end_at text 500 start - start) := by
  unfold end_at
  dsimp only
  by_cases h0 : min (start + 500) text.length < text.length
  · rw [if_pos h0]
    cases hf : find_boundary ((text.drop start).take (min (start + 500) text.length - start))
        500 boundaries with
    | none =>
      dsimp only
      refine ⟨by omega, by omega, by omega, fun hlt => by omega⟩
    | some q =>
      have hq := find_boundary_spec _ _ _ hf
      have hslice : ((text.drop start).take (min (start + 500) text.length - start)).length
          = min (start + 500) text.length - start := by
        simp only [List.length_take, List.length_drop]
        omega
      rw [hslice] at hq
      dsimp only
      refine ⟨by omega, by omega, by omega, fun _ => by omega⟩
  · rw [if_neg h0]
    refine ⟨by omega, by omega, by omega, fun hlt => by omega⟩

theorem split_aux_succ (text : List Char) (cs ov fuel start : Nat) :
    split_aux text cs ov (fuel + 1) start
      = if start < text.length then
          (text.drop start).take (end_at text cs start - start)
            :: split_aux text cs ov fuel
              (if start < end_at text cs start - ov then end_at text cs start - ov
               else end_at text cs start)
        else [] := rfl

theorem split_aux_spec (text : List Char) :
    ∀ fuel start, start < text.length → text.length - start ≤ fuel →
      start + 50 ≤ text.length →
      ((split_aux text 500 50 fuel start).head?
          = some ((text.drop start).take (end_at text 500 start - start)))
        ∧ (∀ c ∈ split_aux text 500 50 fuel start, c.length ≤ 500 ∧ 50 ≤ c.length)
        ∧ List.Chain' (seam 50) (split_aux text 500 50 fuel start)
        ∧ text.length - start ≤ 450 * ((split_aux text 500 50 fuel start).length - 1) + 500 := by
  intro fuel
  induction fuel with
  | zero =>
    intro start h1 h2 h3
    omega
  | succ fuel ih =>
    intro start h1 h2 h3
    obtain ⟨he_gt, he_le, he_sub, he_big⟩ := end_at_props text start h1
    rw [split_aux_succ, if_pos h1]
    have hchunk_len : ((text.drop start).take (end_at text 500 start - start)).length
        = end_at text 500 start - start := by
      simp only [List.length_take, List.length_drop]
      omega
    by_cases hbr : start < end_at text 500 start - 50
    · rw [if_pos hbr]
      have hs2 : end_at text 500 start - 50 < text.length := by omega
      have hf2 : text.length - (end_at text 500 start - 50) ≤ fuel := by omega
      have h50' : end_at text 500 start - 50 + 50 ≤ text.length := by omega
      obtain ⟨ihhead, ihlen, ihchain, ihcount⟩ :=
        ih (end_at text 500 start - 50) hs2 hf2 h50'
      obtain ⟨he2_gt, he2_le, he2_sub, he2_big⟩ :=
        end_at_props text (end_at text 500 start - 50) hs2
      have h50 : 50 ≤ end_at text 500 (end_at text 500 start - 50)
          - (end_at text 500 start - 50) := by
        by_cases helt : end_at text 500 (end_at text 500 start - 50) < text.length
        · have := he2_big helt
          omega
        · omega
      have hrest_ne : split_aux text 500 50 fuel (end_at text 500 start - 50) ≠ [] := by
        intro hnil
        rw [hnil] at ihhead
        simp at ihhead
      have hrest_len : 1 ≤ (split_aux text 500 50 fuel (end_at text 500 start - 50)).length :=
        List.length_pos.mpr hrest_ne
      refine ⟨rfl, ?_, ?_, ?_⟩
      · intro c hc
        rcases List.mem_cons.mp hc with hc1 | hc2
        · rw [hc1, hchunk_len]
          omega
        · exact ihlen c hc2
      · rw [List.chain'_cons']
        refine ⟨?_, ihchain⟩
        intro y hy
        rw [ihhead] at hy
        rw [Option.mem_some_iff] at hy
        subst hy
        have hchunk2_len : ((text.drop (end_at text 500 start - 50)).take
            (end_at text 500 (end_at text 500 start - 50) - (end_at text 500 start - 50))).length
            = end_at text 500 (end_at text 500 start - 50) - (end_at text 500 start - 50) := by
          simp only [List.length_take, List.length_drop]
          omega
        refine ⟨?_, ?_, ?_⟩
        · rw [hchunk_len]
          omega
        · rw [hchunk2_len]
          omega
        · rw [hchunk_len]
          have lhs_eq : ((text.drop start).take (end_at text 500 start - start)).drop
              (end_at text 500 start - start - 50)
              = (text.drop (end_at text 500 start - 50)).take 50 := by
            rw [List.drop_take, List.drop_drop]
            congr 1
            · omega
            · congr 1
              omega
          have rhs_eq : ((text.drop (end_at text 500 start - 50)).take
              (end_at text 500 (end_at text 500 start - 50) - (end_at text 500 start - 50))).take 50
              = (text.drop (end_at text 500 start - 50)).take 50 := by
            rw [List.take_take]
            congr 1
            omega
          rw [lhs_eq, rhs_eq]
      · have : (((text.drop start).take (end_at text 500 start - start))
            :: split_aux text 500 50 fuel (end_at text 500 start - 50)).length
            = (split_aux text 500 50 fuel (end_at text 500 start - 50)).length + 1 := by
          simp
        rw [this]
        omega
    · rw [if_neg hbr]
      have he_eq : end_at text 500 start = text.length := by
        by_cases helt : end_at text 500 start < text.length
        · have := he_big helt
          omega
        · omega
      have hrest : split_aux text 500 50 fuel (end_at text 500 start) = [] := by
        cases fuel with
        | zero => rfl
        | succ f =>
          rw [split_aux_succ, if_neg (by omega)]
      rw [hrest]
      refine ⟨rfl, ?_, List.chain'_singleton _, ?_⟩
      · intro c hc
        rcases List.mem_cons.mp hc with hc1 | hc2
        · rw [hc1, hchunk_len]
          omega
        · simp at hc2
      · simp only [List.length_singleton]
        omega

/-- C9: splitting any 1200-character text with chunk_size 500 and overlap 50
via `_split_text` produces at least 3 chunks; every chunk is at most 500
characters (the sentence-boundary adjustment only ever pulls a chunk end
backwards, so no chunk exceeds the bound); and each pair of consecutive
chunks overlaps in exactly the configured 50 characters at its seam (the
last 50 characters of one chunk are the first 50 of the next). -/
theorem split_text_1200_spec (text : List Char) (hlen : text.length = 1200) :
    3 ≤ (split_text text 500 50).length
      ∧ (∀ c ∈ split_text text 500 50, c.length ≤ 500)
      ∧ List.Chain' (seam 50) (split_text text 500 50) := by
  unfold split_text
  rw [if_neg (by omega)]
  obtain ⟨hh, hlens, hchain, hcount⟩ :=
    split_aux_spec text (text.length + 1) 0 (by omega) (by omega) (by omega)
  refine ⟨by omega, fun c hc => (hlens c hc).1, hchain⟩

/-- C9 witness: the theorem applied to a concrete 1200-character text. -/
theorem split_text_1200_spec_witness :
    (List.replicate 1200 'a').length = 1200
      ∧ 3 ≤ (split_text (List.replicate 1200 'a') 500 50).length :=
  ⟨List.length_replicate 1200 'a',
   (split_text_1200_spec (List.replicate 1200 'a') (List.length_replicate 1200 'a')).1⟩

end Bot
